import Mathlib

/-
Verification of the Bitrix24 webhook bot (src/bot/views.py) against its
natural-language specification.

The embedding models the JSON-like values flowing through the handlers,
Python dict/list truthiness, the regex scans used by `webhook_handler`,
and the control flow of `webhook_handler` and `install_app`.  Library
calls of the Python standard library (`urllib.parse.parse_qs`,
`json.loads`, UTF-8 decoding) are external collaborators: they are
modelled as parameters of the handler (`ParseEnv`), and theorems that
need facts about their real behaviour state those facts as explicit
hypotheses.  Python exceptions are modelled with `Except`: an `error`
value reaching the top of a handler corresponds to the handler's
catch-all `except` block.
-/

namespace TestBot

/-- JSON-like values as produced by `json.loads` / Django's parsed
bodies.  Numbers are modelled as integers (no claim involves floats);
objects are association lists with the first binding of a key the one
`dict` lookup sees. -/
inductive Json where
  | str (s : String)
  | num (n : Int)
  | bool (b : Bool)
  | null
  | arr (elems : List Json)
  | obj (fields : List (String × Json))

/-- First-match lookup in an association list, the behaviour of Python
`dict` access for our association-list encoding. -/
def lookupFirst {α : Type} : List (String × α) → String → Option α
  | [], _ => none
  | (k, v) :: rest, key => if k = key then some v else lookupFirst rest key

/-- Python `d.get(key, default)` on a mapping already known to be a
`dict` (encoded as its field list). -/
def dictGetD (fields : List (String × Json)) (key : String) (dflt : Json) : Json :=
  match lookupFirst fields key with
  | some v => v
  | none => dflt

/-- Python truthiness of a JSON-like value: empty string, zero, `False`,
`None`, empty list and empty dict are falsy. -/
def pyTruthy : Json → Bool
  | .str s => s != ""
  | .num n => n != 0
  | .bool b => b
  | .null => false
  | .arr elems => !elems.isEmpty
  | .obj fields => !fields.isEmpty

/-- Python truthiness of an optional value (`None` is falsy). -/
def pyTruthyOpt : Option Json → Bool
  | none => false
  | some v => pyTruthy v

/-- Values on which Python slicing `v[:10]` succeeds (strings and
lists; any other JSON-like value raises `TypeError`). -/
def pySliceable : Json → Bool
  | .str _ => true
  | .arr _ => true
  | _ => false

/-- Python exceptions that the modelled code can raise. -/
inductive PyErr where
  | attributeError
  | typeError
  | indexError
  | other
deriving DecidableEq

/-- The whitespace class of the regex `\s` restricted to ASCII (the
model's alphabet of interest; the handlers' payloads use ASCII
whitespace only). -/
def pySpace (c : Char) : Bool :=
  c == ' ' || c == '\t' || c == '\n' || c == '\r' || c == '\x0b' || c == '\x0c'

/-- Non-whitespace, the character class `[^\s]` of the link regex. -/
def nonspace (c : Char) : Bool := !pySpace c

/-- Match of the literal scheme part `https?://` of the link regex at
the head of the character list; returns the number of characters the
scheme consumed. -/
def schemeAt (l : List Char) : Option Nat :=
  if l.take 8 = "https://".toList then some 8
  else if l.take 7 = "http://".toList then some 7
  else none

/-- One fuelled step of `re.findall(r'https?://[^\s]+', text)`: scan
left to right; at a position where the scheme matches and at least one
non-whitespace character follows, emit the scheme plus the maximal
non-whitespace run and resume after the match (non-overlapping);
otherwise advance one character.  Fuel bounds the recursion; the
wrapper passes the input length, which the scan never exceeds. -/
def findLinksGo : Nat → List Char → List (List Char)
  | 0, _ => []
  | _ + 1, [] => []
  | fuel + 1, c :: rest =>
    match schemeAt (c :: rest) with
    | some n =>
      let after := (c :: rest).drop n
      let run := after.takeWhile nonspace
      if run.isEmpty then findLinksGo fuel rest
      else ((c :: rest).take n ++ run) :: findLinksGo fuel (after.dropWhile nonspace)
    | none => findLinksGo fuel rest

/-- `re.findall(r'https?://[^\s]+', text)` of views.py line 107. -/
def find_links (s : String) : List String :=
  (findLinksGo s.toList.length s.toList).map (fun cs => String.mk cs)

/-- Transcription of the claim's description of the link scanner: the
maximal run of non-whitespace characters starting at each literal
occurrence of the scheme, scheme included, in order of first
appearance with duplicates preserved.  Used only to compare the claim
with the code's `find_links`. -/
def claimLinksAux : List Char → List (List Char)
  | [] => []
  | c :: rest =>
    match schemeAt (c :: rest) with
    | some n =>
      ((c :: rest).take n ++ ((c :: rest).drop n).takeWhile nonspace) :: claimLinksAux rest
    | none => claimLinksAux rest

/-- String-level wrapper of `claimLinksAux`. -/
def find_links_claim (s : String) : List String :=
  (claimLinksAux s.toList).map (fun cs => String.mk cs)

/-- Match of `DEAL\|(\d+)` at the head of a character list: the literal
`DEAL|` followed by at least one decimal digit; returns the digit run. -/
def dealAt (l : List Char) : Option String :=
  if l.take 5 = "DEAL|".toList then
    let ds := (l.drop 5).takeWhile Char.isDigit
    if ds.isEmpty then none else some (String.mk ds)
  else none

/-- Left-to-right scan of `re.search(r'DEAL\|(\d+)', text)`. -/
def findDealAux : List Char → Option String
  | [] => none
  | c :: rest =>
    match dealAt (c :: rest) with
    | some d => some d
    | none => findDealAux rest

/-- The deal-id extraction of views.py lines 111-115 (the spec's
`find_entity_id`): first occurrence of `DEAL|` followed by digits. -/
def find_entity_id (s : String) : Option String := findDealAux s.toList

/-- The external library collaborators of `webhook_handler`:
`urllib.parse.parse_qs` (a finite mapping from keys to lists of string
values, encoded as an association list) and `json.loads` (`none` is a
`JSONDecodeError`). -/
structure ParseEnv where
  parse_qs : String → List (String × List String)
  json_loads : String → Option Json

/-- Result of the body-parsing section of `webhook_handler`
(views.py lines 69-97): an exception escaping to the catch-all, an
early `return JsonResponse` after a logged anomaly, or a dictionary
payload to continue with. -/
inductive ParseStep where
  | exc
  | anomaly
  | parsed (data : List (String × Json))

/-- The common `isinstance(data, dict)` check of views.py lines 92-96:
non-dict data is a logged anomaly with an early success return. -/
def ensureDict : Json → ParseStep
  | .obj fields => ParseStep.parsed fields
  | _ => ParseStep.anomaly

/-- The `data = json.loads(body)` branch of views.py lines 77-83,
taken when no usable `data` form field exists: a decode error is a
logged anomaly with an early success return. -/
def wholeBodyBranch (env : ParseEnv) (body : String) : ParseStep :=
  match env.json_loads body with
  | none => ParseStep.anomaly
  | some j => ensureDict j

/-- The parsing section of `webhook_handler` (views.py lines 69-97).
`decoded` is the result of `request.body.decode('utf-8')` (`none` is a
`UnicodeDecodeError`, which the catch-all absorbs).  Mirrors
`parsed.get('data', [None])[0]` including the `IndexError` when the
form value list is empty, the truthiness test `if not data_str`, and
the fallback `data = {}` when the form value fails to parse as JSON
(a `parse_qs` value is a string, never a dict). -/
def parseNormalized (env : ParseEnv) (decoded : Option String) : ParseStep :=
  match decoded with
  | none => ParseStep.exc
  | some body =>
    match lookupFirst (env.parse_qs body) "data" with
    | some [] => ParseStep.exc
    | some (v :: _) =>
      if v = "" then wholeBodyBranch env body
      else
        match env.json_loads v with
        | some j => ensureDict j
        | none => ensureDict (Json.obj [])
    | none => wholeBodyBranch env body

/-- Whether the whole-body `json.loads(body)` attempt of views.py
line 79 is reached on the given request. -/
def wholeBodyTried (env : ParseEnv) (decoded : Option String) : Bool :=
  match decoded with
  | none => false
  | some body =>
    match lookupFirst (env.parse_qs body) "data" with
    | none => true
    | some [] => false
    | some (v :: _) => v == ""

/-- Transcription of the specification's PayloadParser contract
(spec section 4.1): a total function to a normalized mapping, with the
empty mapping for every failure.  Used only to compare the
specification with the code's parsing section. -/
def parse_spec (env : ParseEnv) (decoded : Option String) : List (String × Json) :=
  match decoded with
  | none => []
  | some body =>
    match lookupFirst (env.parse_qs body) "data" with
    | some (v :: _) =>
      (match env.json_loads v with
       | some (Json.obj fields) => fields
       | _ => [])
    | _ =>
      (match env.json_loads body with
       | some (Json.obj fields) => fields
       | _ => [])

/-- A fact about real `urllib.parse.parse_qs` with default arguments:
every key of the result carries a non-empty list of non-empty string
values (`keep_blank_values` is false). -/
def qsClean (parsed : List (String × List String)) : Prop :=
  ∀ p ∈ parsed, p.2 ≠ [] ∧ ∀ s ∈ p.2, s ≠ ""

/-- The four PARAMS fields read by views.py lines 99-104. -/
structure ParamsFields where
  message : Json
  dialog_id : Json
  user_id : Json
  entity_data1 : Json

/-- views.py lines 99-104: `params = data.get('PARAMS', {})` followed
by `.get` reads of the four fields.  The default `{}` applies only
when `PARAMS` is absent; a present non-dict `PARAMS` makes the first
field read raise `AttributeError`.  Present fields are returned
verbatim, whatever their type. -/
def extractParams (data : List (String × Json)) : Except PyErr ParamsFields :=
  match dictGetD data "PARAMS" (Json.obj []) with
  | Json.obj ps =>
    Except.ok
      { message := dictGetD ps "MESSAGE" (Json.str "")
        dialog_id := dictGetD ps "DIALOG_ID" (Json.str "")
        user_id := dictGetD ps "FROM_USER_ID" (Json.str "")
        entity_data1 := dictGetD ps "CHAT_ENTITY_DATA_1" (Json.str "") }
  | _ => Except.error PyErr.attributeError

/-- The `BOT` scan of views.py lines 118-123: walk the list and take
the `access_token` value of the first dict element that has that key. -/
def tokenLoop : List Json → Json
  | [] => Json.str ""
  | Json.obj fields :: rest =>
    (match lookupFirst fields "access_token" with
     | some v => v
     | none => tokenLoop rest)
  | _ :: rest => tokenLoop rest

/-- views.py lines 117-123: `bot_data = data.get('BOT', [])` was
already applied by the caller; only a list is scanned, any other value
leaves the token at the empty string. -/
def extractToken : Json → Json
  | Json.arr elems => tokenLoop elems
  | _ => Json.str ""

/-- The event record produced by the extraction section of
`webhook_handler` once it reaches the dispatch decision. -/
structure BotEvent where
  message : String
  dialog_id : Json
  user_id : Json
  entity_data1 : Json
  links : List String
  deal_id : Option String
  access_token : Json

/-- The extraction section of `webhook_handler` (views.py lines
99-134): PARAMS fields, link scan (raises `TypeError` when `MESSAGE`
is not a string), deal-id scan (only when `CHAT_ENTITY_DATA_1` is
truthy; raises when truthy and not a string), BOT token scan, and the
token-logging slice `access_token[:10]` (raises when the token is
truthy and not sliceable). -/
def extractEvent (data : List (String × Json)) : Except PyErr BotEvent :=
  match extractParams data with
  | Except.error e => Except.error e
  | Except.ok pf =>
    match pf.message with
    | Json.str msg =>
      let links := find_links msg
      let dealStep : Except PyErr (Option String) :=
        if pyTruthy pf.entity_data1 then
          match pf.entity_data1 with
          | Json.str s => Except.ok (find_entity_id s)
          | _ => Except.error PyErr.typeError
        else Except.ok none
      (match dealStep with
       | Except.error e => Except.error e
       | Except.ok deal =>
         let tok := extractToken (dictGetD data "BOT" (Json.arr []))
         if pyTruthy tok && !pySliceable tok then Except.error PyErr.typeError
         else
           Except.ok
             { message := msg, dialog_id := pf.dialog_id, user_id := pf.user_id
               entity_data1 := pf.entity_data1, links := links, deal_id := deal
               access_token := tok })
    | _ => Except.error PyErr.typeError

/-- The reply text built by `send_message_to_dialog`
(views.py lines 212-223). -/
def build_response_message (user_message : String) (links : List String)
    (deal_id : Option String) : String :=
  let base := "✅ Message received!\n" ++ "Original message: " ++ user_message.take 100
  let withLinks :=
    if links.isEmpty then base
    else
      base ++ "\n\n🔗 Found " ++ toString links.length ++ " link(s):\n" ++
        String.join (links.map (fun link => "• " ++ link ++ "\n"))
  match deal_id with
  | some d => if d.isEmpty then withLinks else withLinks ++ "\n💼 Deal ID: " ++ d
  | none => withLinks

/-- Outcome of the external `requests.post` delivery call inside
`send_message_to_dialog`: a completed HTTP exchange (any status), a
`requests.exceptions.RequestException`, or any other exception. -/
inductive DeliveryResult where
  | completed (status : Nat) (text : String)
  | requestErr (msg : String)
  | otherErr

/-- views.py lines 247-268: `RequestException` is caught inside
`send_message_to_dialog`; a completed exchange of any status only
logs; any other exception escapes to the handler's catch-all. -/
def sendOutcome : DeliveryResult → Except PyErr Unit
  | DeliveryResult.completed _ _ => Except.ok ()
  | DeliveryResult.requestErr _ => Except.ok ()
  | DeliveryResult.otherErr => Except.error PyErr.other

/-- The outbound call recorded when `send_message_to_dialog` is
invoked. -/
structure OutboundCall where
  dialog_id : Json
  access_token : Json
  text : String

/-- An HTTP response of the modelled Django handlers. -/
structure HttpResponse where
  status : Nat
  body : Json

/-- Observable outcome of one `webhook_handler` call: the HTTP
response, the outbound delivery attempt if one was made, and whether
the missing-credentials warning of views.py line 150 was logged. -/
structure WebhookOutcome where
  response : HttpResponse
  dispatched : Option OutboundCall
  warnedMissing : Bool

/-- The fixed acknowledgement body of the webhook handler. -/
def okBody : Json := Json.obj [("result", Json.str "ok")]

/-- views.py lines 99-155 from the extraction section onward: on any
extraction exception the catch-all returns the acknowledgement; the
dispatch happens exactly when `access_token and dialog_id` is truthy,
and its outcome (including an exception escaping the delivery call)
never changes the response. -/
def payloadRun (delivery : DeliveryResult) (data : List (String × Json)) : WebhookOutcome :=
  match extractEvent data with
  | Except.error _ => ⟨⟨200, okBody⟩, none, false⟩
  | Except.ok ev =>
    if pyTruthy ev.access_token && pyTruthy ev.dialog_id then
      let call : OutboundCall :=
        ⟨ev.dialog_id, ev.access_token,
          build_response_message ev.message ev.links ev.deal_id⟩
      match sendOutcome delivery with
      | Except.ok _ => ⟨⟨200, okBody⟩, some call, false⟩
      | Except.error _ => ⟨⟨200, okBody⟩, some call, false⟩
    else ⟨⟨200, okBody⟩, none, true⟩

/-- `webhook_handler` of views.py lines 64-155, as a function of the
library collaborators, the delivery outcome and the decoded body. -/
def webhook_handler (env : ParseEnv) (delivery : DeliveryResult)
    (decoded : Option String) : WebhookOutcome :=
  match parseNormalized env decoded with
  | ParseStep.exc => ⟨⟨200, okBody⟩, none, false⟩
  | ParseStep.anomaly => ⟨⟨200, okBody⟩, none, false⟩
  | ParseStep.parsed data => payloadRun delivery data

/-- The response and dispatch attempt of a webhook outcome — what the
platform and the downstream dialog observe (logging excluded). -/
def observable (o : WebhookOutcome) : HttpResponse × Option OutboundCall :=
  (o.response, o.dispatched)

/-- The token resolution of `install_app` (views.py lines 275-282):
`auth.access_token` when `auth` is a dict, else `auth` itself when
present, else the top-level `access_token`. -/
def resolveAuthId (data : List (String × Json)) : Option Json :=
  match lookupFirst data "auth" with
  | some (Json.obj fields) => lookupFirst fields "access_token"
  | some v => some v
  | none => lookupFirst data "access_token"

/-- The `auth.access_token` token location, in isolation. -/
def locAuthAccessToken (data : List (String × Json)) : Option Json :=
  match lookupFirst data "auth" with
  | some (Json.obj fields) => lookupFirst fields "access_token"
  | _ => none

/-- The `auth`-itself token location (a non-dict `auth` value), in
isolation. -/
def locAuthPlain (data : List (String × Json)) : Option Json :=
  match lookupFirst data "auth" with
  | some (Json.obj _) => none
  | some v => some v
  | none => none

/-- The top-level `access_token` token location, in isolation. -/
def locAccessToken (data : List (String × Json)) : Option Json :=
  lookupFirst data "access_token"

/-- Outcome of the external registration `requests.post` of
`install_app`. -/
inductive RegResult where
  | ok (text : String)
  | httpErr (status : Nat) (text : String)
  | requestErr (msg : String)

/-- Observable outcome of one `install_app` call: the HTTP response
and whether the outbound registration call was attempted. -/
structure InstallOutcome where
  response : HttpResponse
  registered : Bool

/-- The 400 response `install_app` returns when no token resolves. -/
def authMissingOutcome : InstallOutcome :=
  ⟨⟨400, Json.obj [("error", Json.str "AUTH_ID missing")]⟩, false⟩

/-- `install_app` of views.py lines 262-333 from the parsed payload
onward: resolve the token; a falsy result returns 400 with the
AUTH_ID-missing body and no registration call; otherwise the
registration call is made and its outcome relayed (the raw body on
HTTP 200, the upstream status with a fixed error body otherwise, 500
when the call itself failed). -/
def install_app (reg : RegResult) (data : List (String × Json)) : InstallOutcome :=
  if !pyTruthyOpt (resolveAuthId data) then authMissingOutcome
  else
    match reg with
    | RegResult.ok text => ⟨⟨200, Json.str text⟩, true⟩
    | RegResult.httpErr status _ =>
      ⟨⟨status, Json.obj [("error", Json.str "Bot registration failed")]⟩, true⟩
    | RegResult.requestErr msg =>
      ⟨⟨500, Json.obj [("error", Json.str ("Bot registration failed: " ++ msg))]⟩, true⟩

/-- An element that stops the `BOT` scan: a mapping carrying an
`access_token` key. -/
def tokenBearer : Json → Bool
  | Json.obj fields => (lookupFirst fields "access_token").isSome
  | _ => false

/-- A concrete environment for the claim C3 witness: the form decode
holds a `data` value that parses to a one-field mapping. -/
def envFormData : ParseEnv :=
  ⟨fun _ => [("data", ["J"])],
   fun s => if s = "J" then some (Json.obj [("A", Json.str "B")]) else none⟩

/-- Whether a scheme occurrence starts at position `i`. -/
def occursAt (l : List Char) (i : Nat) : Bool := (schemeAt (l.drop i)).isSome

/-- Whether the character at position `i` is regex whitespace. -/
def spaceAt (l : List Char) (i : Nat) : Bool :=
  match l.drop i with
  | c :: _ => pySpace c
  | [] => false

/-- A scheme occurrence at position `i` is followed by at least one
non-whitespace character (vacuously true at non-occurrences). -/
def goodOcc (l : List Char) (i : Nat) : Bool :=
  match schemeAt (l.drop i) with
  | some n => !((l.drop (i + n)).takeWhile nonspace).isEmpty
  | none => true

/-- Whether some position in the half-open interval from `i` to `j`
carries a whitespace character. -/
def hasSpaceBetween (l : List Char) (i j : Nat) : Bool :=
  (List.range' i (j - i)).any (fun k => spaceAt l k)

/-- Separation of scheme occurrences: any two occurrences have a
whitespace character between them (no occurrence inside another
match's run), and every occurrence is followed by at least one
non-whitespace character. -/
def sepLinks (l : List Char) : Prop :=
  (∀ i, i < l.length → ∀ j, j < l.length → i < j →
    occursAt l i = true → occursAt l j = true →
    hasSpaceBetween l i j = true) ∧
  (∀ i, i < l.length → goodOcc l i = true)

example : find_links "see https://a.com/x and http://b.com" =
    ["https://a.com/x", "http://b.com"] := by decide

example : find_links "no links here" = [] := by decide

example : find_entity_id "DEAL|482" = some "482" := by decide

example : find_entity_id "LEAD|9" = none := by decide

/-- The post-parsing part of the webhook handler answers 200 ok on
every path: extraction errors, skipped dispatch, and every delivery
outcome alike. -/
theorem payloadRun_response_ok (delivery : DeliveryResult) (data : List (String × Json)) :
    (payloadRun delivery data).response = ⟨200, okBody⟩ := by
  unfold payloadRun
  cases extractEvent data with
  | error e => rfl
  | ok ev =>
    cases hq : (pyTruthy ev.access_token && pyTruthy ev.dialog_id) with
    | true =>
      simp only [hq, if_true]
      cases delivery with
      | completed s t => rfl
      | requestErr m => rfl
      | otherErr => rfl
    | false =>
      simp only [hq]
      rfl

/-- Claim C1: for every inbound webhook request to the message
endpoint, the handler returns HTTP 200 with body `result: ok`,
regardless of internal outcome — undecodable bytes, malformed or
non-mapping payloads, missing fields, any raised exception, and
failure or timeout of the outbound delivery call included. -/
theorem c1_webhook_always_ok (env : ParseEnv) (delivery : DeliveryResult)
    (decoded : Option String) :
    (webhook_handler env delivery decoded).response = ⟨200, okBody⟩ := by
  unfold webhook_handler
  cases parseNormalized env decoded with
  | exc => rfl
  | anomaly => rfl
  | parsed data => exact payloadRun_response_ok delivery data

/-- A successful association-list lookup pinpoints a member of the
list. -/
theorem lookupFirst_mem {α : Type} {l : List (String × α)} {key : String} {v : α}
    (h : lookupFirst l key = some v) : (key, v) ∈ l := by
  induction l with
  | nil => exact absurd h (by simp [lookupFirst])
  | cons p rest ih =>
    obtain ⟨k', v'⟩ := p
    simp only [lookupFirst] at h
    by_cases hk : k' = key
    · rw [if_pos hk] at h
      injection h with hv
      subst hk
      subst hv
      exact List.mem_cons_self _ _
    · rw [if_neg hk] at h
      exact List.mem_cons_of_mem _ (ih h)

/-- Claim C2: parsing is total and every failure is, observably, the
empty mapping — for every request (undecodable bytes, whatever the
form and JSON outcomes), the handler's observable behaviour equals the
behaviour of running the extraction pipeline on the specification's
total parse, which yields the empty mapping on every failure.  (The
hypothesis records the real behaviour of `parse_qs`: no empty value
lists and no empty-string values.) -/
theorem c2_parse_total (env : ParseEnv) (delivery : DeliveryResult) (decoded : Option String)
    (hqs : ∀ b, decoded = some b → qsClean (env.parse_qs b)) :
    observable (webhook_handler env delivery decoded) =
      observable (payloadRun delivery (parse_spec env decoded)) := by
  cases decoded with
  | none => rfl
  | some body =>
    have hclean := hqs body rfl
    cases hlk : lookupFirst (env.parse_qs body) "data" with
    | none =>
      cases hjl : env.json_loads body with
      | none =>
        simp only [webhook_handler, parseNormalized, parse_spec, wholeBodyBranch, hlk, hjl]
        rfl
      | some j =>
        cases j <;>
          simp only [webhook_handler, parseNormalized, parse_spec, wholeBodyBranch,
            ensureDict, hlk, hjl] <;> rfl
    | some vs =>
      obtain ⟨hne, hnempty⟩ := hclean ("data", vs) (lookupFirst_mem hlk)
      cases vs with
      | nil => exact absurd rfl hne
      | cons v rest =>
        have hv : v ≠ "" := hnempty v (List.mem_cons_self v rest)
        cases hjv : env.json_loads v with
        | none =>
          simp only [webhook_handler, parseNormalized, parse_spec, hlk]
          rw [if_neg hv, hjv]
          rfl
        | some j =>
          cases j <;>
            (simp only [webhook_handler, parseNormalized, parse_spec, hlk];
              rw [if_neg hv, hjv]; rfl)

/-- Witness for claim C2 at a concrete environment where the body is
neither form-decodable to a data field nor valid JSON. -/
theorem c2_parse_total_witness :
    observable (webhook_handler ⟨fun _ => [], fun _ => none⟩
        (DeliveryResult.completed 200 "") (some "zz")) =
      observable (payloadRun (DeliveryResult.completed 200 "")
        (parse_spec ⟨fun _ => [], fun _ => none⟩ (some "zz"))) :=
  c2_parse_total ⟨fun _ => [], fun _ => none⟩ (DeliveryResult.completed 200 "") (some "zz")
    (fun _ _ => fun p hp => absurd hp (List.not_mem_nil p))

/-- Claim C3: a form-decodable body with a `data` key whose first
value parses as a JSON mapping yields exactly that mapping, and the
whole-body JSON attempt is made only when the form-decoded body has no
`data` key. -/
theorem c3_form_data_first (env : ParseEnv) (body v : String) (rest : List String)
    (fields : List (String × Json))
    (hclean : qsClean (env.parse_qs body))
    (hlk : lookupFirst (env.parse_qs body) "data" = some (v :: rest))
    (hjson : env.json_loads v = some (Json.obj fields)) :
    parseNormalized env (some body) = ParseStep.parsed fields ∧
    wholeBodyTried env (some body) = false ∧
    (∀ body2 : String, qsClean (env.parse_qs body2) →
      wholeBodyTried env (some body2) = true →
      lookupFirst (env.parse_qs body2) "data" = none) := by
  have hv : v ≠ "" :=
    (hclean ("data", v :: rest) (lookupFirst_mem hlk)).2 v (List.mem_cons_self v rest)
  refine ⟨?_, ?_, ?_⟩
  · simp only [parseNormalized, hlk]
    rw [if_neg hv, hjson]
    rfl
  · simp only [wholeBodyTried, hlk]
    cases hbe : v == "" with
    | true => exact ((hv (eq_of_beq hbe)).elim)
    | false => rfl
  · intro body2 hclean2 htried
    cases hlk2 : lookupFirst (env.parse_qs body2) "data" with
    | none => rfl
    | some vs =>
      exfalso
      cases vs with
      | nil => exact (hclean2 ("data", []) (lookupFirst_mem hlk2)).1 rfl
      | cons w ws =>
        have hw : w ≠ "" :=
          (hclean2 ("data", w :: ws) (lookupFirst_mem hlk2)).2 w (List.mem_cons_self w ws)
        simp only [wholeBodyTried, hlk2] at htried
        exact hw (eq_of_beq htried)

/-- Witness for claim C3 at `envFormData`: the parsed payload is
exactly the mapping held by the `data` field, the whole-body attempt
is skipped, and whenever the whole-body attempt fires no `data` key
was present. -/
theorem c3_form_data_first_witness :
    parseNormalized envFormData (some "b") = ParseStep.parsed [("A", Json.str "B")] ∧
    wholeBodyTried envFormData (some "b") = false ∧
    (∀ body2 : String, qsClean (envFormData.parse_qs body2) →
      wholeBodyTried envFormData (some body2) = true →
      lookupFirst (envFormData.parse_qs body2) "data" = none) :=
  c3_form_data_first envFormData "b" "J" [] [("A", Json.str "B")]
    (by unfold qsClean; decide) rfl rfl

/-- Claim C4, counterexample: a `BOT` value that is a single mapping
with `access_token` set to `zz` does not yield that token — the
extractor scans only list-shaped `BOT` values, so the token stays
empty. -/
theorem c4_counterexample :
    extractToken (Json.obj [("access_token", Json.str "zz")]) = Json.str "" ∧
    Json.str "" ≠ Json.str "zz" := by
  constructor
  · rfl
  · intro h
    injection h with h'
    exact absurd h' (by decide)

/-- Claim C4, amended: the extractor is not polymorphic over shapes —
only an ordered sequence `BOT` value is scanned; every non-sequence
`BOT` value (a single mapping included) yields the empty access
token. -/
theorem c4_only_sequences_scanned (j : Json) (h : ∀ elems : List Json, j ≠ Json.arr elems) :
    extractToken j = Json.str "" := by
  cases j with
  | arr elems => exact absurd rfl (h elems)
  | str s => rfl
  | num n => rfl
  | bool b => rfl
  | null => rfl
  | obj fields => rfl

/-- Witness for the amended claim C4 at the single-mapping input of
the original claim. -/
theorem c4_only_sequences_scanned_witness :
    extractToken (Json.obj [("access_token", Json.str "zz")]) = Json.str "" :=
  c4_only_sequences_scanned (Json.obj [("access_token", Json.str "zz")])
    (fun _ h => nomatch h)

/-- Claim C5, counterexample: with `BOT` a sequence whose first
mapping element has no `access_token` key, the scan does consult later
elements and returns the second element's token — the claim predicted
the empty token from the first mapping element with no further
elements consulted. -/
theorem c5_counterexample :
    extractToken (Json.arr [Json.obj [], Json.obj [("access_token", Json.str "t")]]) =
      Json.str "t" ∧
    Json.str "t" ≠ Json.str "" := by
  constructor
  · rfl
  · intro h
    injection h with h'
    exact absurd h' (by decide)

/-- Claim C5, amended: the scan takes the first element that is a
mapping containing an `access_token` key and returns that value
verbatim (empty or not); mappings without the key and non-mapping
elements are skipped, and elements after the first token-bearing
mapping are never consulted. -/
theorem c5_first_token_bearer (pre post : List Json) (fields : List (String × Json))
    (v : Json) (hpre : ∀ x ∈ pre, tokenBearer x = false)
    (hv : lookupFirst fields "access_token" = some v) :
    extractToken (Json.arr (pre ++ Json.obj fields :: post)) = v := by
  induction pre with
  | nil =>
    show tokenLoop (Json.obj fields :: post) = v
    simp only [tokenLoop, hv]
  | cons x xs ih =>
    have hx : tokenBearer x = false := hpre x (List.mem_cons_self x xs)
    have hxs : ∀ y ∈ xs, tokenBearer y = false :=
      fun y hy => hpre y (List.mem_cons_of_mem x hy)
    have ih' : extractToken (Json.arr (xs ++ Json.obj fields :: post)) = v := ih hxs
    cases x with
    | obj fs =>
      cases hl : lookupFirst fs "access_token" with
      | none =>
        show (match lookupFirst fs "access_token" with
              | some w => w
              | none => tokenLoop (xs ++ Json.obj fields :: post)) = v
        rw [hl]
        exact ih'
      | some w =>
        simp only [tokenBearer] at hx
        rw [hl] at hx
        simp at hx
    | str s => exact ih'
    | num n => exact ih'
    | bool b => exact ih'
    | null => exact ih'
    | arr elems => exact ih'

/-- Witness for the amended claim C5: a non-bearing string element and
a keyless mapping are skipped, the third element's token is taken, and
the fourth element is never consulted. -/
theorem c5_first_token_bearer_witness :
    extractToken (Json.arr ([Json.str "x", Json.obj []] ++
      Json.obj [("access_token", Json.str "t")] ::
        [Json.obj [("access_token", Json.str "ignored")]])) = Json.str "t" :=
  c5_first_token_bearer [Json.str "x", Json.obj []]
    [Json.obj [("access_token", Json.str "ignored")]]
    [("access_token", Json.str "t")] (Json.str "t")
    (by decide)
    rfl

/-- Claim C6, counterexample: a `PARAMS` value of the wrong type (a
string) does not default to the empty mapping — the first field read
raises `AttributeError`, so extraction fails rather than yielding
defaults (the handler's catch-all then absorbs the error). -/
theorem c6_counterexample :
    extractParams [("PARAMS", Json.str "oops")] = Except.error PyErr.attributeError ∧
    extractEvent [("PARAMS", Json.str "oops")] = Except.error PyErr.attributeError := by
  exact ⟨rfl, rfl⟩

/-- Claim C6, amended: `PARAMS` defaults to the empty mapping only
when absent; the four fields default to the empty string only when
their key is absent and a present value is returned verbatim whatever
its type; a present non-mapping `PARAMS` makes extraction raise
`AttributeError` (absorbed by the handler's catch-all) instead of
defaulting. -/
theorem c6_params_defaults (data : List (String × Json)) :
    (lookupFirst data "PARAMS" = none →
      extractParams data =
        Except.ok ⟨Json.str "", Json.str "", Json.str "", Json.str ""⟩) ∧
    (∀ ps, lookupFirst data "PARAMS" = some (Json.obj ps) →
      extractParams data =
        Except.ok ⟨dictGetD ps "MESSAGE" (Json.str ""),
          dictGetD ps "DIALOG_ID" (Json.str ""),
          dictGetD ps "FROM_USER_ID" (Json.str ""),
          dictGetD ps "CHAT_ENTITY_DATA_1" (Json.str "")⟩) ∧
    (∀ j, lookupFirst data "PARAMS" = some j → (∀ ps, j ≠ Json.obj ps) →
      extractParams data = Except.error PyErr.attributeError) := by
  refine ⟨?_, ?_, ?_⟩
  · intro h
    unfold extractParams dictGetD
    rw [h]
    rfl
  · intro ps h
    unfold extractParams dictGetD
    rw [h]
  · intro j h hne
    unfold extractParams dictGetD
    rw [h]
    cases j with
    | obj ps => exact absurd rfl (hne ps)
    | str s => rfl
    | num n => rfl
    | bool b => rfl
    | null => rfl
    | arr elems => rfl

/-- Witness for the amended claim C6 at three concrete payloads:
absent `PARAMS` yields all defaults, a present mapping yields its
values verbatim (a numeric `MESSAGE` included), and a non-mapping
`PARAMS` raises. -/
theorem c6_params_defaults_witness :
    extractParams [("other", Json.num 1)] =
      Except.ok ⟨Json.str "", Json.str "", Json.str "", Json.str ""⟩ ∧
    extractParams [("PARAMS", Json.obj [("MESSAGE", Json.num 5)])] =
      Except.ok ⟨Json.num 5, Json.str "", Json.str "", Json.str ""⟩ ∧
    extractParams [("PARAMS", Json.num 0)] = Except.error PyErr.attributeError := by
  refine ⟨(c6_params_defaults [("other", Json.num 1)]).1 rfl, ?_, ?_⟩
  · exact (c6_params_defaults [("PARAMS", Json.obj [("MESSAGE", Json.num 5)])]).2.1
      [("MESSAGE", Json.num 5)] rfl
  · exact (c6_params_defaults [("PARAMS", Json.num 0)]).2.2 (Json.num 0) rfl
      (fun _ h => nomatch h)

/-- Claim C7: once extraction reaches the dispatch decision with
string-valued credentials, an outbound message is constructed and
dispatched if and only if both the extracted dialog id and access
token are non-empty; when either is empty the dispatch is skipped, the
omission is recorded by the warning log, and the handler still
returns the success acknowledgement. -/
theorem c7_dispatch_iff (delivery : DeliveryResult) (data : List (String × Json))
    (ev : BotEvent) (d t : String)
    (hev : extractEvent data = Except.ok ev)
    (hd : ev.dialog_id = Json.str d)
    (ht : ev.access_token = Json.str t) :
    ((payloadRun delivery data).dispatched.isSome = true ↔ (t ≠ "" ∧ d ≠ "")) ∧
    ((t = "" ∨ d = "") →
      payloadRun delivery data = ⟨⟨200, okBody⟩, none, true⟩) := by
  have hiff : (((t != "") && (d != "")) = true) ↔ (t ≠ "" ∧ d ≠ "") := by
    simp [Bool.and_eq_true]
  have hdisp : (payloadRun delivery data).dispatched =
      (if ((t != "") && (d != "")) = true then
        some ⟨Json.str d, Json.str t,
          build_response_message ev.message ev.links ev.deal_id⟩
      else none) := by
    simp only [payloadRun, hev, hd, ht, pyTruthy]
    cases hq : ((t != "") && (d != "")) with
    | true =>
      simp only [if_true]
      cases delivery with
      | completed s txt => rfl
      | requestErr m => rfl
      | otherErr => rfl
    | false => rfl
  refine ⟨?_, ?_⟩
  · rw [hdisp]
    by_cases hc : t ≠ "" ∧ d ≠ ""
    · rw [if_pos (hiff.mpr hc)]
      exact iff_of_true rfl hc
    · rw [if_neg (fun hb => hc (hiff.mp hb))]
      exact iff_of_false (by simp) hc
  · intro hor
    have hfalse : ((t != "") && (d != "")) = false := by
      rcases hor with h | h
      · subst h
        simp
      · subst h
        simp
    simp only [payloadRun, hev, hd, ht, pyTruthy, hfalse]
    rfl

/-- Witness for claim C7: a payload with a non-empty dialog id and a
non-empty token gets a dispatch. -/
theorem c7_dispatch_iff_witness :
    (payloadRun (DeliveryResult.completed 200 "")
      [("PARAMS", Json.obj [("MESSAGE", Json.str "hi"), ("DIALOG_ID", Json.str "7")]),
       ("BOT", Json.arr [Json.obj [("access_token", Json.str "tok")]])]).dispatched.isSome
      = true :=
  (c7_dispatch_iff (DeliveryResult.completed 200 "")
    [("PARAMS", Json.obj [("MESSAGE", Json.str "hi"), ("DIALOG_ID", Json.str "7")]),
     ("BOT", Json.arr [Json.obj [("access_token", Json.str "tok")]])]
    ⟨"hi", Json.str "7", Json.str "", Json.str "", [], none, Json.str "tok"⟩
    "7" "tok" rfl rfl rfl).1.mpr (by decide)

/-- A falsy resolved token makes `install_app` answer 400 with the
AUTH_ID-missing body and skip registration. -/
theorem install_app_auth_missing (reg : RegResult) (data : List (String × Json))
    (hfalse : pyTruthyOpt (resolveAuthId data) = false) :
    install_app reg data = authMissingOutcome := by
  simp [install_app, hfalse]

/-- Claim C9: when none of the three token locations of `install_app`
yields a truthy token, the endpoint returns HTTP 400 with the
AUTH_ID-missing error body and performs no outbound registration
call. -/
theorem c9_install_missing_token (reg : RegResult) (data : List (String × Json))
    (h1 : pyTruthyOpt (locAuthAccessToken data) = false)
    (h2 : pyTruthyOpt (locAuthPlain data) = false)
    (h3 : pyTruthyOpt (locAccessToken data) = false) :
    install_app reg data = authMissingOutcome := by
  apply install_app_auth_missing
  cases hlk : lookupFirst data "auth" with
  | none =>
    simp only [resolveAuthId, hlk]
    simpa [locAccessToken] using h3
  | some v =>
    cases v with
    | obj fields =>
      simp only [resolveAuthId, hlk]
      simpa [locAuthAccessToken, hlk] using h1
    | str s =>
      simp only [resolveAuthId, hlk]
      simpa [locAuthPlain, hlk] using h2
    | num n =>
      simp only [resolveAuthId, hlk]
      simpa [locAuthPlain, hlk] using h2
    | bool b =>
      simp only [resolveAuthId, hlk]
      simpa [locAuthPlain, hlk] using h2
    | null =>
      simp only [resolveAuthId, hlk]
      rfl
    | arr elems =>
      simp only [resolveAuthId, hlk]
      simpa [locAuthPlain, hlk] using h2

/-- Witness for claim C9: a payload whose `auth` is a mapping without
an `access_token` key resolves no token anywhere and gets the 400
response with no registration call. -/
theorem c9_install_missing_token_witness :
    install_app (RegResult.ok "resp") [("auth", Json.obj [])] = authMissingOutcome :=
  c9_install_missing_token (RegResult.ok "resp") [("auth", Json.obj [])] rfl rfl rfl

/-- Claim C10: a token field present with a falsy value is treated as
missing — an empty-string `auth` or `access_token`, and an `auth`
mapping without the `access_token` key (top-level `access_token` never
consulted, resolution stopping at the first matching key) all return
HTTP 400 with the AUTH_ID-missing body and no registration call. -/
theorem c10_falsy_token_missing (reg : RegResult) (data : List (String × Json)) :
    (lookupFirst data "auth" = some (Json.str "") →
      install_app reg data = authMissingOutcome) ∧
    (lookupFirst data "auth" = none →
      lookupFirst data "access_token" = some (Json.str "") →
      install_app reg data = authMissingOutcome) ∧
    (∀ fields, lookupFirst data "auth" = some (Json.obj fields) →
      lookupFirst fields "access_token" = none →
      install_app reg data = authMissingOutcome) := by
  refine ⟨?_, ?_, ?_⟩
  · intro h
    apply install_app_auth_missing
    simp only [resolveAuthId, h]
    rfl
  · intro h h'
    apply install_app_auth_missing
    simp only [resolveAuthId, h, h']
    rfl
  · intro fields h h'
    apply install_app_auth_missing
    simp only [resolveAuthId, h, h']
    rfl

/-- Witness for claim C10 at three concrete payloads: empty-string
`auth`, empty-string top-level `access_token`, and a keyless `auth`
mapping alongside a truthy top-level `access_token` that is never
consulted. -/
theorem c10_falsy_token_missing_witness :
    install_app (RegResult.ok "resp") [("auth", Json.str "")] = authMissingOutcome ∧
    install_app (RegResult.ok "resp") [("access_token", Json.str "")] = authMissingOutcome ∧
    install_app (RegResult.ok "resp")
      [("auth", Json.obj []), ("access_token", Json.str "tok")] = authMissingOutcome := by
  refine ⟨?_, ?_, ?_⟩
  · exact (c10_falsy_token_missing (RegResult.ok "resp") [("auth", Json.str "")]).1 rfl
  · exact (c10_falsy_token_missing (RegResult.ok "resp")
      [("access_token", Json.str "")]).2.1 rfl rfl
  · exact (c10_falsy_token_missing (RegResult.ok "resp")
      [("auth", Json.obj []), ("access_token", Json.str "tok")]).2.2 [] rfl rfl

/-- Claim C8, counterexample: the scan of `re.findall` is
non-overlapping and left-to-right, so on an input where a second
scheme occurrence lies inside the non-whitespace run of a first match
the code returns one match, while the claim's description (a match at
each literal occurrence) yields two. -/
theorem c8_counterexample :
    find_links "http://ahttps://b" = ["http://ahttps://b"] ∧
    find_links_claim "http://ahttps://b" = ["http://ahttps://b", "https://b"] ∧
    find_links "http://ahttps://b" ≠ find_links_claim "http://ahttps://b" := by
  refine ⟨by decide, by decide, by decide⟩

/-- The interval scan is a bounded existential. -/
theorem hasSpaceBetween_iff (l : List Char) (i j : Nat) :
    hasSpaceBetween l i j = true ↔ ∃ k, i ≤ k ∧ k < j ∧ spaceAt l k = true := by
  unfold hasSpaceBetween
  rw [List.any_eq_true]
  constructor
  · rintro ⟨k, hk, hsp⟩
    have hmem := List.mem_range'_1.mp hk
    exact ⟨k, hmem.1, by omega, hsp⟩
  · rintro ⟨k, h1, h2, h3⟩
    exact ⟨k, List.mem_range'_1.mpr ⟨h1, by omega⟩, h3⟩

/-- A scheme match is one of the two literal schemes. -/
theorem schemeAt_cases {l : List Char} {n : Nat} (h : schemeAt l = some n) :
    (n = 8 ∧ l.take 8 = "https://".toList) ∨ (n = 7 ∧ l.take 7 = "http://".toList) := by
  unfold schemeAt at h
  by_cases h8 : l.take 8 = "https://".toList
  · rw [if_pos h8] at h
    injection h with hn
    exact Or.inl ⟨hn.symm, h8⟩
  · rw [if_neg h8] at h
    by_cases h7 : l.take 7 = "http://".toList
    · rw [if_pos h7] at h
      injection h with hn
      exact Or.inr ⟨hn.symm, h7⟩
    · rw [if_neg h7] at h
      cases h

/-- A scheme match fits inside the list. -/
theorem schemeAt_le_length {l : List Char} {n : Nat} (h : schemeAt l = some n) :
    n ≤ l.length := by
  rcases schemeAt_cases h with ⟨hn, ht⟩ | ⟨hn, ht⟩
  · subst hn
    have hlen := congrArg List.length ht
    rw [List.length_take] at hlen
    rw [show ("https://".toList).length = 8 from rfl] at hlen
    exact min_eq_left_iff.mp hlen
  · subst hn
    have hlen := congrArg List.length ht
    rw [List.length_take] at hlen
    rw [show ("http://".toList).length = 7 from rfl] at hlen
    exact min_eq_left_iff.mp hlen

/-- Scheme matches consume at least one character. -/
theorem schemeAt_pos {l : List Char} {n : Nat} (h : schemeAt l = some n) : 1 ≤ n := by
  rcases schemeAt_cases h with ⟨hn, _⟩ | ⟨hn, _⟩ <;> omega

/-- The characters of a scheme match are non-whitespace. -/
theorem schemeAt_take_nonspace {l : List Char} {n : Nat} (h : schemeAt l = some n) :
    ∀ c ∈ l.take n, nonspace c = true := by
  rcases schemeAt_cases h with ⟨hn, ht⟩ | ⟨hn, ht⟩
  · subst hn
    rw [ht]
    decide
  · subst hn
    rw [ht]
    decide

/-- Positions inside an all-non-whitespace block are not whitespace
positions. -/
theorem spaceAt_append (xs ys : List Char) :
    ∀ k, k < xs.length → (∀ c ∈ xs, nonspace c = true) → spaceAt (xs ++ ys) k = false := by
  induction xs with
  | nil =>
    intro k hk _
    exact absurd hk (Nat.not_lt_zero k)
  | cons c rest ih =>
    intro k hk hns
    cases k with
    | zero =>
      have hc := hns c (List.mem_cons_self c rest)
      show pySpace c = false
      cases hp : pySpace c with
      | false => rfl
      | true => simp [nonspace, hp] at hc
    | succ k' =>
      have hstep : spaceAt (rest ++ ys) k' = false :=
        ih k' (Nat.lt_of_succ_lt_succ hk)
          (fun c' hc' => hns c' (List.mem_cons_of_mem c hc'))
      exact hstep

/-- Occurrence positions shift under `drop`. -/
theorem occursAt_drop (l : List Char) (m i : Nat) :
    occursAt (l.drop m) i = occursAt l (m + i) := by
  unfold occursAt
  rw [List.drop_drop]

/-- Whitespace positions shift under `drop`. -/
theorem spaceAt_drop (l : List Char) (m i : Nat) :
    spaceAt (l.drop m) i = spaceAt l (m + i) := by
  unfold spaceAt
  rw [List.drop_drop]

/-- The followed-by-non-whitespace property shifts under `drop`. -/
theorem goodOcc_drop (l : List Char) (m i : Nat) :
    goodOcc (l.drop m) i = goodOcc l (m + i) := by
  unfold goodOcc
  rw [List.drop_drop]
  cases hs : schemeAt (l.drop (m + i)) with
  | none => rfl
  | some n =>
    show (!(List.takeWhile nonspace (List.drop (i + n) (List.drop m l))).isEmpty) =
      (!(List.takeWhile nonspace (List.drop (m + i + n) l)).isEmpty)
    rw [List.drop_drop, ← Nat.add_assoc]

/-- Separation is inherited by suffixes. -/
theorem sepLinks_drop {l : List Char} (m : Nat) (h : sepLinks l) : sepLinks (l.drop m) := by
  obtain ⟨h1, h2⟩ := h
  constructor
  · intro i hi j hj hij hoi hoj
    rw [List.length_drop] at hi hj
    rw [occursAt_drop] at hoi hoj
    obtain ⟨k, hk1, hk2, hk3⟩ := (hasSpaceBetween_iff l (m + i) (m + j)).mp
      (h1 (m + i) (by omega) (m + j) (by omega) (by omega) hoi hoj)
    refine (hasSpaceBetween_iff (l.drop m) i j).mpr ⟨k - m, by omega, by omega, ?_⟩
    rw [spaceAt_drop]
    have hk : m + (k - m) = k := by omega
    rw [hk]
    exact hk3
  · intro i hi
    rw [List.length_drop] at hi
    rw [goodOcc_drop]
    exact h2 (m + i) (by omega)

/-- Dropping past a stretch with no occurrence does not change the
claim-described match list. -/
theorem claimLinks_drop_noOcc :
    ∀ (m : Nat) (l : List Char), (∀ i, i < m → occursAt l i = false) →
      claimLinksAux l = claimLinksAux (l.drop m) := by
  intro m
  induction m with
  | zero =>
    intro l _
    rfl
  | succ m' ih =>
    intro l hno
    cases l with
    | nil => rw [List.drop_nil]
    | cons c rest =>
      have h0 : occursAt (c :: rest) 0 = false := hno 0 (Nat.succ_pos m')
      have hs : schemeAt (c :: rest) = none := by
        unfold occursAt at h0
        rw [List.drop_zero] at h0
        cases hsa : schemeAt (c :: rest) with
        | none => rfl
        | some n =>
          rw [hsa] at h0
          cases h0
      have hrest : ∀ i, i < m' → occursAt rest i = false := by
        intro i hi
        have h' := hno (i + 1) (by omega)
        have hshift : occursAt rest i = occursAt (c :: rest) (1 + i) :=
          occursAt_drop (c :: rest) 1 i
        rw [hshift, Nat.add_comm]
        exact h'
      show claimLinksAux (c :: rest) = claimLinksAux (rest.drop m')
      simp only [claimLinksAux, hs]
      exact ih rest hrest

/-- `dropWhile` drops exactly the length of the `takeWhile` part. -/
theorem dropWhile_eq_drop (p : Char → Bool) :
    ∀ l : List Char, l.dropWhile p = l.drop (l.takeWhile p).length := by
  intro l
  induction l with
  | nil => rfl
  | cons c cs ih =>
    cases hp : p c with
    | true =>
      simp only [List.dropWhile, List.takeWhile, hp, List.length_cons, List.drop_succ_cons]
      exact ih
    | false =>
      simp only [List.dropWhile, List.takeWhile, hp, List.length_nil, List.drop_zero]

/-- Under separation, the fuelled code scan agrees with the
claim-described match list. -/
theorem findLinksGo_eq_claim :
    ∀ (fuel : Nat) (l : List Char), l.length ≤ fuel → sepLinks l →
      findLinksGo fuel l = claimLinksAux l := by
  intro fuel
  induction fuel with
  | zero =>
    intro l hl _
    have hnil : l = [] := List.eq_nil_of_length_eq_zero (Nat.le_zero.mp hl)
    subst hnil
    rfl
  | succ f ih =>
    intro l hl hsep
    cases l with
    | nil => rfl
    | cons c rest =>
      cases hs : schemeAt (c :: rest) with
      | none =>
        have hsep' : sepLinks rest := sepLinks_drop 1 hsep
        simp only [findLinksGo, claimLinksAux, hs]
        exact ih rest (by simp at hl; omega) hsep'
      | some n =>
        have hn1 : 1 ≤ n := schemeAt_pos hs
        have hnlen : n ≤ (c :: rest).length := schemeAt_le_length hs
        have hrunlen : (((c :: rest).drop n).takeWhile nonspace).length ≤
            (c :: rest).length - n := by
          have := (List.takeWhile_sublist (l := (c :: rest).drop n) nonspace).length_le
          rwa [List.length_drop] at this
        have hrun : ((c :: rest).drop n).takeWhile nonspace ≠ [] := by
          have hg := hsep.2 0 (Nat.succ_pos rest.length)
          unfold goodOcc at hg
          rw [List.drop_zero, hs] at hg
          have hg' : (!(List.takeWhile nonspace
              (List.drop (0 + n) (c :: rest))).isEmpty) = true := hg
          rw [Nat.zero_add] at hg'
          intro hcontra
          rw [hcontra] at hg'
          simp at hg'
        have hrunE : (((c :: rest).drop n).takeWhile nonspace).isEmpty = false := by
          cases hq : ((c :: rest).drop n).takeWhile nonspace with
          | nil => exact absurd hq hrun
          | cons a as => rfl
        have hdecomp : (c :: rest) =
            ((c :: rest).take n ++ ((c :: rest).drop n).takeWhile nonspace) ++
              ((c :: rest).drop n).dropWhile nonspace := by
          rw [List.append_assoc, List.takeWhile_append_dropWhile, List.take_append_drop]
        have htakelen : ((c :: rest).take n).length = n := by
          rw [List.length_take]
          exact Nat.min_eq_left hnlen
        have hxsmem : ∀ ch ∈ (c :: rest).take n ++ ((c :: rest).drop n).takeWhile nonspace,
            nonspace ch = true := by
          intro ch hch
          rcases List.mem_append.mp hch with hmem | hmem
          · exact schemeAt_take_nonspace hs ch hmem
          · exact List.mem_takeWhile_imp hmem
        have hspace : ∀ k, k < n + (((c :: rest).drop n).takeWhile nonspace).length →
            spaceAt (c :: rest) k = false := by
          intro k hk
          conv_lhs => rw [hdecomp]
          apply spaceAt_append
          · rw [List.length_append, htakelen]
            exact hk
          · exact hxsmem
        have ho0 : occursAt (c :: rest) 0 = true := by
          unfold occursAt
          rw [List.drop_zero, hs]
          rfl
        have hnoocc : ∀ i, i < n + (((c :: rest).drop n).takeWhile nonspace).length - 1 →
            occursAt rest i = false := by
          intro i hi
          cases hoc : occursAt rest i with
          | false => rfl
          | true =>
            exfalso
            have hp : occursAt (c :: rest) (1 + i) = true := by
              have hshift : occursAt rest i = occursAt (c :: rest) (1 + i) :=
                occursAt_drop (c :: rest) 1 i
              rw [← hshift]
              exact hoc
            have hplen : 1 + i < (c :: rest).length := by omega
            obtain ⟨k, hk1, hk2, hk3⟩ := (hasSpaceBetween_iff (c :: rest) 0 (1 + i)).mp
              (hsep.1 0 (Nat.succ_pos rest.length) (1 + i) (by omega) (by omega) ho0 hp)
            have hkf := hspace k (by omega)
            rw [hkf] at hk3
            cases hk3
        have hstep : findLinksGo (f + 1) (c :: rest) =
            ((c :: rest).take n ++ ((c :: rest).drop n).takeWhile nonspace) ::
              findLinksGo f (((c :: rest).drop n).dropWhile nonspace) := by
          simp only [findLinksGo, hs]
          rw [if_neg (by simp [hrunE])]
        have hclaim : claimLinksAux (c :: rest) =
            ((c :: rest).take n ++ ((c :: rest).drop n).takeWhile nonspace) ::
              claimLinksAux rest := by
          simp only [claimLinksAux, hs]
        have hmE : (c :: rest).drop (n + (((c :: rest).drop n).takeWhile nonspace).length) =
            ((c :: rest).drop n).dropWhile nonspace := by
          rw [dropWhile_eq_drop nonspace ((c :: rest).drop n), List.drop_drop]
        have htail : claimLinksAux rest =
            claimLinksAux ((c :: rest).drop
              (n + (((c :: rest).drop n).takeWhile nonspace).length)) := by
          have hdrop := claimLinks_drop_noOcc
            (n + (((c :: rest).drop n).takeWhile nonspace).length - 1) rest hnoocc
          have hsucc : n + (((c :: rest).drop n).takeWhile nonspace).length =
              (n + (((c :: rest).drop n).takeWhile nonspace).length - 1) + 1 := by
            omega
          rw [hsucc]
          exact hdrop
        rw [hstep, hclaim]
        have htail2 : findLinksGo f (((c :: rest).drop n).dropWhile nonspace) =
            claimLinksAux rest := by
          rw [← hmE, htail]
          apply ih
          · rw [List.length_drop]
            simp only [List.length_cons] at hl ⊢
            omega
          · exact sepLinks_drop _ hsep
        rw [htail2]

/-- Claim C8, amended: `find_links` is pure and deterministic and, for
every input string in which any two scheme occurrences have whitespace
between them and every occurrence is followed by at least one
non-whitespace character, it returns exactly the maximal
non-whitespace runs starting at each literal occurrence of `http://`
or `https://` (scheme included), in order of first appearance with
duplicates preserved, and the empty sequence when there is no
occurrence.  (Without the separation proviso the left-to-right
non-overlapping scan of `re.findall` drops occurrences inside an
earlier match, and an occurrence followed by whitespace or the end of
input yields no match.) -/
theorem c8_links_separated (s : String) (h : sepLinks s.toList) :
    find_links s = find_links_claim s := by
  unfold find_links find_links_claim
  rw [findLinksGo_eq_claim s.toList.length s.toList le_rfl h]

/-- Witness for the amended claim C8 at the specification's own
example string. -/
theorem c8_links_separated_witness :
    find_links "see https://a.com/x and http://b.com" =
      find_links_claim "see https://a.com/x and http://b.com" :=
  c8_links_separated "see https://a.com/x and http://b.com" (by unfold sepLinks; decide)

end TestBot
